import Mathlib

/-!
Verification development for the AAA TON Gift Scanner repository.

The shallow embedding below translates:
* `get_asset_key` from `scripts/init_db.sql`;
* `WSClient.scheduleReconnect` from `webapp/src/websocket.ts`;
* the `new_deal` WebSocket handler from `webapp/src/App.tsx`;
* the profit display branch of `DealCard` from `webapp/src/main.tsx`;
* the Analytics Engine, Deal Synthesizer and Alert Engine, whose
  implementation is not part of the repository sources: those
  definitions are modelled from the specification (each such
  definition says so in its doc comment).

Machine integers of the source are modelled by `Nat`/`Int`; SQL
`DECIMAL`/JS numbers by `Rat`; SQL `NULL` and TS `null`/`undefined`
by `Option`.
-/

/-- Marketplace event kinds: `buy`, `listing`, `change_price`. -/
inductive EventType where
  | buy
  | listing
  | change_price
deriving DecidableEq, Repr

/-- Event sources: `swift_gifts`, `tonnel`. -/
inductive Source where
  | swift_gifts
  | tonnel
deriving DecidableEq, Repr

/-- Confidence levels of `AssetAnalytics`. -/
inductive Confidence where
  | low
  | medium
  | high
  | very_high
deriving DecidableEq, Repr

/-- Trend values of `AssetAnalytics`. -/
inductive Trend where
  | rising
  | falling
  | stable
deriving DecidableEq, Repr

/-- Quality badges of a `Deal`. -/
inductive Badge where
  | GEM
  | HOT
  | BLACK_PACK
  | SNIPER
deriving DecidableEq, Repr

/-- `get_asset_key` from `scripts/init_db.sql`: the canonical asset
identity is `model:backdrop:number` when the number is present and
`model:backdrop` otherwise, a `NULL` backdrop being replaced by
`no_bg` via `COALESCE`. -/
def get_asset_key (model : String) (backdrop : Option String) (number : Option Int) : String :=
  match number with
  | some n => model ++ ":" ++ backdrop.getD "no_bg" ++ ":" ++ toString n
  | none => model ++ ":" ++ backdrop.getD "no_bg"

/-- `min(1000 * Math.pow(2, attempts), 30000)` from
`WSClient.scheduleReconnect` in `webapp/src/websocket.ts`. -/
def reconnectDelay (n : Nat) : Nat :=
  min (1000 * 2 ^ n) 30000

/-- The mutable fields of `WSClient` that `scheduleReconnect` reads:
the reconnect-attempt counter and whether a reconnect timer is
already pending. -/
structure WSState where
  reconnectAttempts : Nat
  timerSet : Bool
deriving DecidableEq, Repr

/-- `WSClient.scheduleReconnect` from `webapp/src/websocket.ts`:
returns the delay it schedules (or `none` when it returns without
scheduling) together with the updated client state.  It bails out
when a timer is already pending or when `reconnectAttempts` has
reached `maxAttempts` (5 in the source); otherwise it schedules
`reconnectDelay attempts` and increments the counter. -/
def scheduleReconnect (maxAttempts : Nat) (s : WSState) : Option Nat × WSState :=
  if s.timerSet then (none, s)
  else if maxAttempts ≤ s.reconnectAttempts then (none, s)
  else (some (reconnectDelay s.reconnectAttempts),
        ⟨s.reconnectAttempts + 1, true⟩)

/-- The `Deal` wire record of `webapp/src/types.ts`, restricted to the
fields the verified code paths consume.  `profit_pct` is optional
because the backend may send `null` and `DealCard` explicitly checks
for it. -/
structure Deal where
  asset_key : String
  gift_id : String
  price : Rat
  reference_price : Option Rat
  profit_pct : Option Rat
  confidence_level : Confidence
  liquidity_score : Rat
  hotness : Rat
  is_black_pack : Bool
  backdrop : Option String
  pat : Option String
  quality_badge : Option Badge
deriving DecidableEq, Repr

/-- The `new_deal` branch of the WebSocket subscription in
`webapp/src/App.tsx`: `setDeals((prev) => [deal, ...prev].slice(0, 50))` —
the incoming deal is prepended and the result truncated to 50. -/
def applyNewDeal (d : Deal) (prev : List Deal) : List Deal :=
  (d :: prev).take 50

/-- The profit section of `DealCard` in `webapp/src/main.tsx`.  The
first component is whether the profit line renders
(`deal.profit_pct !== null && deal.profit_pct !== 0`), the second is
whether the "profit is being computed" placeholder renders
(`deal.profit_pct === null || deal.profit_pct === 0`). -/
def dealCardProfitBranch (p : Option Rat) : Bool × Bool :=
  match p with
  | none => (false, true)
  | some q => (decide (q ≠ 0), decide (q = 0))

/-- Rounding to one decimal, the half-up integer rounding of ten
times the value divided by ten. -/
def roundTo1 (x : Rat) : Rat :=
  (round (x * 10) : Int) / 10

/-- Modelled from the spec: the Deal Synthesizer's `profit_pct`
computation, which is not among the repository sources.  The spec:
`(reference_price - price) / reference_price * 100` when a positive
reference price exists, rounded to one decimal, and the
not-computable sentinel (`none`) otherwise. -/
def profitPct (price : Rat) (ref : Option Rat) : Option Rat :=
  match ref with
  | none => none
  | some r => if 0 < r then some (roundTo1 ((r - price) / r * 100)) else none

/-- Modelled from the spec: the Deal Synthesizer's `quality_badge`
rule, which is not among the repository sources.  First matching rule
wins: `BLACK_PACK` if `is_black_pack`; else `GEM` if `profit_pct ≥ 30`
and confidence is high or very high; else `SNIPER` if
`profit_pct ≥ 50`; else `HOT` if `hotness ≥ 7`; else none.  A missing
`profit_pct` satisfies no profit threshold. -/
def qualityBadge (d : Deal) : Option Badge :=
  if d.is_black_pack then some Badge.BLACK_PACK
  else if (match d.profit_pct with
            | some q => decide (30 ≤ q)
            | none => false)
          && (d.confidence_level == Confidence.high
              || d.confidence_level == Confidence.very_high) then
    some Badge.GEM
  else if (match d.profit_pct with
            | some q => decide (50 ≤ q)
            | none => false) then
    some Badge.SNIPER
  else if 7 ≤ d.hotness then some Badge.HOT
  else none

/-- `background_filter` values of `user_settings` in
`scripts/init_db.sql`: `any`, `none`, `black_pack` (the `general` /
`no_bg` criteria are folded into the same choice). -/
inductive BgFilter where
  | any_bg
  | no_bg
  | black_pack
deriving DecidableEq, Repr

/-- The `user_settings` row of `scripts/init_db.sql`, restricted to
the fields the Alert Engine's evaluation pipeline reads. -/
structure UserSettings where
  active : Bool
  price_min : Option Rat
  price_max : Option Rat
  profit_min : Rat
  background_filter : BgFilter
  clean_only : Bool
deriving DecidableEq, Repr

/-- The `watchlist` row of `scripts/init_db.sql`: unique per
`(user_id, asset_key)`, with a per-asset profit threshold. -/
structure WatchlistEntry where
  user_id : Nat
  asset_key : String
  profit_threshold : Rat
deriving DecidableEq, Repr

/-- The `muted_assets` row of `scripts/init_db.sql`. -/
structure MutedAsset where
  user_id : Nat
  asset_key : String
  muted_until : Int
deriving DecidableEq, Repr

/-- The `sent_alerts` row of `scripts/init_db.sql` (the `event_id`
column is irrelevant to cooldown decisions and omitted). -/
structure SentAlert where
  user_id : Nat
  asset_key : String
  profit_pct : Rat
  sent_at : Int
deriving DecidableEq, Repr

/-- An emitted alert decision of the Alert Engine. -/
structure AlertDecision where
  user_id : Nat
  deal : Deal
  reason : String
deriving DecidableEq, Repr

/-- Cooldown policy of the Alert Engine: window length (same time
unit as `sent_at`) and the escalation margin in profit points. -/
structure AlertConfig where
  window : Int
  margin : Rat
deriving DecidableEq, Repr

/-- Modelled from the spec: `effective_profit_min` of the Alert
Engine's filter stage (the engine is not among the repository
sources) — the user's `WatchlistEntry.profit_threshold` for this
asset when present, else `user_settings.profit_min`. -/
def effProfitMin (settings : UserSettings) (watchlist : List WatchlistEntry)
    (u : Nat) (key : String) : Rat :=
  match watchlist.find? (fun w => w.user_id == u && w.asset_key == key) with
  | some w => w.profit_threshold
  | none => settings.profit_min

/-- Modelled from the spec: the Alert Engine's filter stage (stage 3,
not among the repository sources) — price within bounds, profit at
least the effective minimum (a deal with no computable profit never
passes), and the background / clean-only settings as configured.  The
spec leaves the background and clean semantics loose; they are
modelled from the `user_settings` schema values. -/
def filterOk (settings : UserSettings) (watchlist : List WatchlistEntry)
    (u : Nat) (d : Deal) : Bool :=
  (match settings.price_min with
    | some m => decide (m ≤ d.price)
    | none => true)
  && (match settings.price_max with
    | some m => decide (d.price ≤ m)
    | none => true)
  && (match d.profit_pct with
    | some q => decide (effProfitMin settings watchlist u d.asset_key ≤ q)
    | none => false)
  && (match settings.background_filter with
    | BgFilter.any_bg => true
    | BgFilter.no_bg => d.backdrop.isNone
    | BgFilter.black_pack => d.is_black_pack)
  && (!settings.clean_only || d.pat.isNone)

/-- Modelled from the spec: the mute check (stage 2) — a `MutedAsset`
row for `(user, asset_key)` with `muted_until > now` blocks the
alert; expired rows are ignored. -/
def mutedNow (muted : List MutedAsset) (u : Nat) (key : String) (now : Int) : Bool :=
  muted.any (fun m => m.user_id == u && m.asset_key == key && decide (now < m.muted_until))

/-- The profit value a deal contributes to cooldown comparisons and
to the recorded `SentAlert` (a deal with no computable profit never
reaches these stages because the filter rejects it). -/
def profitVal (d : Deal) : Rat :=
  d.profit_pct.getD 0

/-- Modelled from the spec: the cooldown check (stage 4) — a
`SentAlert` for `(user, asset_key)` within the cooldown window blocks
the alert unless the new deal's `profit_pct` exceeds the previously
alerted `profit_pct` by at least the escalation margin. -/
def cooldownBlocked (cfg : AlertConfig) (sent : List SentAlert)
    (u : Nat) (d : Deal) (now : Int) : Bool :=
  sent.any (fun a => a.user_id == u && a.asset_key == d.asset_key
    && decide (now - a.sent_at < cfg.window)
    && decide (profitVal d < a.profit_pct + cfg.margin))

/-- Modelled from the spec: the Alert Engine's evaluation pipeline
(§4.3, not among the repository sources), each stage short-circuiting
on rejection: active check, mute check, filter check, cooldown check,
then emit. -/
def evaluate (cfg : AlertConfig) (settings : UserSettings)
    (watchlist : List WatchlistEntry) (muted : List MutedAsset)
    (sent : List SentAlert) (u : Nat) (d : Deal) (now : Int) :
    Option AlertDecision :=
  if !settings.active then none
  else if mutedNow muted u d.asset_key now then none
  else if !filterOk settings watchlist u d then none
  else if cooldownBlocked cfg sent u d now then none
  else some ⟨u, d, "alert"⟩

/-- Modelled from the spec: one evaluation step of the Alert Engine —
when the pipeline emits, a new `SentAlert` is appended to the
history. -/
def alertStep (cfg : AlertConfig) (settings : UserSettings)
    (watchlist : List WatchlistEntry) (muted : List MutedAsset) (u : Nat)
    (sent : List SentAlert) (c : Deal × Int) : List SentAlert :=
  match evaluate cfg settings watchlist muted sent u c.1 c.2 with
  | some _ => sent ++ [⟨u, c.1.asset_key, profitVal c.1, c.2⟩]
  | none => sent

/-- Modelled from the spec: running the Alert Engine over a history
of `(deal, now)` evaluations for one user, starting from an alert
history. -/
def alertRun (cfg : AlertConfig) (settings : UserSettings)
    (watchlist : List WatchlistEntry) (muted : List MutedAsset) (u : Nat)
    (sent : List SentAlert) (cands : List (Deal × Int)) : List SentAlert :=
  cands.foldl (alertStep cfg settings watchlist muted u) sent

/-- Cooldown safety relation between two `SentAlert`s in emission
order: if they concern the same user/asset pair and were sent within
one cooldown window of each other, the later one escalates the
earlier one's profit by at least the margin. -/
def escalated (cfg : AlertConfig) (a b : SentAlert) : Prop :=
  a.user_id = b.user_id → a.asset_key = b.asset_key →
    b.sent_at - a.sent_at < cfg.window → a.profit_pct + cfg.margin ≤ b.profit_pct

/-- Modelled from the spec: the liquidity score formula of the
Analytics Engine (not among the repository sources) —
`min(10, log2(sales_7d+1)*2 + log2(listings_count+1))`. -/
noncomputable def liquidityScore (sales7 listings : Nat) : Real :=
  min 10 (Real.logb 2 (sales7 + 1) * 2 + Real.logb 2 (listings + 1))

/-- The `market_events` row of `scripts/init_db.sql`, restricted to
the fields the Analytics Engine reads.  `event_time` is an epoch
timestamp (seconds). -/
structure MarketEvent where
  event_time : Int
  event_type : EventType
  gift_id : String
  model : String
  backdrop : Option String
  pat : Option String
  number : Option Int
  price : Rat
  price_old : Option Rat
  source : Source
deriving DecidableEq, Repr

/-- The `active_listings` row of `scripts/init_db.sql`, restricted to
the fields the Analytics Engine reads. -/
structure ActiveListing where
  gift_id : String
  model : String
  backdrop : Option String
  number : Option Int
  price : Rat
  listed_at : Int
  source : Source
deriving DecidableEq, Repr

/-- The event-identity tuple `(event_time, gift_id, event_type)` used
for deduplication. -/
def eventKey (e : MarketEvent) : Int × String × EventType :=
  (e.event_time, e.gift_id, e.event_type)

/-- Helper of `dedupByKey`: drop every event whose identity tuple was
already seen, keeping first occurrences. -/
def dedupGo (seen : List (Int × String × EventType)) :
    List MarketEvent → List MarketEvent
  | [] => []
  | e :: rest =>
    if eventKey e ∈ seen then dedupGo seen rest
    else e :: dedupGo (eventKey e :: seen) rest

/-- Modelled from the spec: deduplication by event identity before
aggregation (§4.1) — of several events sharing one
`(event_time, gift_id, event_type)` tuple only the first is kept. -/
def dedupByKey (events : List MarketEvent) : List MarketEvent :=
  dedupGo [] events

/-- Canonical asset key of an event, via `get_asset_key`. -/
def eventAssetKey (e : MarketEvent) : String :=
  get_asset_key e.model e.backdrop e.number

/-- Linear-interpolation quantile over an already sorted sample list:
position `q * (n - 1)` interpolated between its neighbouring order
statistics; `none` on an empty sample, the single sample itself when
only one exists. -/
def quantileLin (xs : List Rat) (q : Rat) : Option Rat :=
  match xs with
  | [] => none
  | x :: _ =>
    let n := xs.length
    let pos : Rat := q * (n - 1)
    let i : Nat := pos.floor.toNat
    let frac : Rat := pos - (i : Int)
    match xs.get? i, xs.get? (i + 1) with
    | some a, some b => some (a + frac * (b - a))
    | some a, none => some a
    | none, _ => some x

/-- Sorted `buy` prices of the asset's deduplicated events whose
event time lies in the half-open window `(now - back, now - front]`. -/
def windowPrices (events : List MarketEvent) (now front back : Int) : List Rat :=
  ((events.filter (fun e => e.event_type == EventType.buy
      && decide (now - back < e.event_time) && decide (e.event_time ≤ now - front))).map
    (fun e => e.price)).mergeSort (fun a b => decide (a ≤ b))

/-- Modelled from the spec: the confidence policy of the Analytics
Engine (not among the repository sources), with N = 5: `very_high`
needs at least 5 sales in 7 days and a sale within 24 hours; `high`
needs at least N/2 sales in 7 days; `medium` needs any sale in
30 days; else `low`. -/
def confidenceOf (sales7 sales30 : Nat) (lastSale : Option Int) (now : Int) : Confidence :=
  if 5 ≤ sales7 && (match lastSale with
      | some t => decide (now - t ≤ 86400)
      | none => false) then Confidence.very_high
  else if 5 ≤ 2 * sales7 then Confidence.high
  else if 1 ≤ sales30 then Confidence.medium
  else Confidence.low

/-- Modelled from the spec: the trend policy of the Analytics Engine
(not among the repository sources) — the median sale price of the
last 7 days against that of the 7 days before: `rising` above +5 %,
`falling` below −5 %, else `stable` (also when either window has no
sales). -/
def trendOf (q50new q50old : Option Rat) : Trend :=
  match q50new, q50old with
  | some a, some b =>
    if 105 * b < 100 * a then Trend.rising
    else if 100 * a < 95 * b then Trend.falling
    else Trend.stable
  | _, _ => Trend.stable

/-- The cached `asset_analytics` record of `scripts/init_db.sql`. -/
structure AssetAnalytics where
  asset_key : String
  floor_1st : Option Rat
  floor_2nd : Option Rat
  floor_3rd : Option Rat
  listings_count : Nat
  sales_7d : Nat
  sales_30d : Nat
  price_q25 : Option Rat
  price_q50 : Option Rat
  price_q75 : Option Rat
  price_max : Option Rat
  liquidity_score : Real
  confidence_level : Confidence
  last_sale_at : Option Int
  trend : Trend
  updated_at : Int

/-- Distinct listing prices of the asset in ascending order, ties
broken by earliest `listed_at`, ready for floor order statistics. -/
def distinctFloorPrices (listings : List ActiveListing) : List Rat :=
  ((listings.mergeSort (fun a b =>
      decide (a.price < b.price)
      || (a.price == b.price && decide (a.listed_at ≤ b.listed_at)))).map
    (fun l => l.price)).dedup

/-- Modelled from the spec: `recompute` of the Analytics Engine
(§4.1, not among the repository sources).  Events are deduplicated by
identity, restricted to the asset key, and aggregated: floors are the
first three distinct-price order statistics of the current listings;
sales counts and the `buy`-price quantiles use trailing event-time
windows (7 d / 30 d, in seconds); liquidity, confidence and trend
follow the corresponding policies. -/
noncomputable def recompute (key : String) (listings : List ActiveListing)
    (events : List MarketEvent) (now : Int) : AssetAnalytics :=
  let evs := (dedupByKey events).filter (fun e => eventAssetKey e == key)
  let buys7 := windowPrices evs now 0 (7 * 86400)
  let buys30 := windowPrices evs now 0 (30 * 86400)
  let buysPrev7 := windowPrices evs now (7 * 86400) (14 * 86400)
  let floors := distinctFloorPrices listings
  let saleTimes := (evs.filter (fun e => e.event_type == EventType.buy)).map
    (fun e => e.event_time)
  { asset_key := key
    floor_1st := floors.get? 0
    floor_2nd := floors.get? 1
    floor_3rd := floors.get? 2
    listings_count := listings.length
    sales_7d := buys7.length
    sales_30d := buys30.length
    price_q25 := quantileLin buys30 (1/4)
    price_q50 := quantileLin buys30 (1/2)
    price_q75 := quantileLin buys30 (3/4)
    price_max := buys30.max?
    liquidity_score := liquidityScore buys7.length listings.length
    confidence_level := confidenceOf buys7.length buys30.length saleTimes.max? now
    last_sale_at := saleTimes.max?
    trend := trendOf (quantileLin buys7 (1/2)) (quantileLin buysPrev7 (1/2))
    updated_at := now }

/-- The `ActiveListing` row an event upserts. -/
def listingOfEvent (e : MarketEvent) : ActiveListing :=
  ⟨e.gift_id, e.model, e.backdrop, e.number, e.price, e.event_time, e.source⟩

/-- Maintenance of `active_listings` (§3): `listing` and
`change_price` upsert the row keyed by `gift_id`, `buy` removes
it. -/
def applyListing (listings : List ActiveListing) (e : MarketEvent) :
    List ActiveListing :=
  match e.event_type with
  | EventType.buy => listings.filter (fun l => l.gift_id != e.gift_id)
  | EventType.listing =>
    listings.filter (fun l => l.gift_id != e.gift_id) ++ [listingOfEvent e]
  | EventType.change_price =>
    listings.filter (fun l => l.gift_id != e.gift_id) ++ [listingOfEvent e]

/-- Durable state the ingest path maintains: the append-only
`market_events` log and the `active_listings` snapshot. -/
structure EngineState where
  events : List MarketEvent
  listings : List ActiveListing

/-- Modelled from the spec: `ingest(event)` — append the event to the
immutable log and maintain the active-listings snapshot. -/
def ingest (e : MarketEvent) (s : EngineState) : EngineState :=
  ⟨s.events ++ [e], applyListing s.listings e⟩

/-- `n`-fold ingestion of the same event. -/
def ingestN (e : MarketEvent) : Nat → EngineState → EngineState
  | 0, s => s
  | n + 1, s => ingest e (ingestN e n s)

/-- The `AssetAnalytics` the engine serves for `key` from a state. -/
noncomputable def analyticsOf (key : String) (s : EngineState) (now : Int) :
    AssetAnalytics :=
  recompute key s.listings s.events now

/-- A concrete black-pack deal with an 80 % profit, for witnesses. -/
def dealBlack80 : Deal :=
  ⟨"Plush Pepe:Black", "g1", 5, some 25, some 80, Confidence.low, 5, 5,
    true, some "Black", none, none⟩

/-- C7: the AssetKey Resolver is a pure function producing
`model:backdrop` when the number is absent and
`model:backdrop:number` when it is present, so equal
`(model, backdrop, number)` designs always resolve to the same
key. -/
theorem assetKey_canonical :
    (∀ m b, get_asset_key m (some b) none = m ++ ":" ++ b) ∧
    (∀ m b n, get_asset_key m (some b) (some n) =
      m ++ ":" ++ b ++ ":" ++ toString n) ∧
    (∀ m₁ b₁ n₁ m₂ b₂ n₂, m₁ = m₂ → b₁ = b₂ → n₁ = n₂ →
      get_asset_key m₁ b₁ n₁ = get_asset_key m₂ b₂ n₂) := by
  refine ⟨fun m b => rfl, fun m b n => rfl, ?_⟩
  intro m₁ b₁ n₁ m₂ b₂ n₂ hm hb hn
  rw [hm, hb, hn]

/-- Witness for `assetKey_canonical`: two listings of the same design
resolve to the same key. -/
theorem assetKey_canonical_witness :
    get_asset_key "Plush Pepe" (some "Black") (some 7) =
      get_asset_key "Plush Pepe" (some "Black") (some 7) :=
  assetKey_canonical.2.2 "Plush Pepe" (some "Black") (some 7)
    "Plush Pepe" (some "Black") (some 7) rfl rfl rfl

/-- C8: the reconnect policy is the capped exponential backoff
`min(1000·2^n, 30000)`, the delay never decreases with the attempt
count, and once the counter has reached the maximum (5) no further
reconnect is ever scheduled. -/
theorem reconnect_backoff :
    (∀ n, reconnectDelay n = min (1000 * 2 ^ n) 30000) ∧
    (∀ n m, n ≤ m → reconnectDelay n ≤ reconnectDelay m) ∧
    (∀ s : WSState, 5 ≤ s.reconnectAttempts →
      (scheduleReconnect 5 s).1 = none ∧ (scheduleReconnect 5 s).2 = s) ∧
    (∀ s : WSState, s.timerSet = false → s.reconnectAttempts < 5 →
      (scheduleReconnect 5 s).1 =
        some (min (1000 * 2 ^ s.reconnectAttempts) 30000)) := by
  refine ⟨fun n => rfl, ?_, ?_, ?_⟩
  · intro n m h
    exact min_le_min
      (Nat.mul_le_mul_left 1000 (Nat.pow_le_pow_right (by norm_num) h)) le_rfl
  · intro s h
    unfold scheduleReconnect
    by_cases ht : s.timerSet <;> simp [ht, h]
  · intro s ht h
    unfold scheduleReconnect
    simp [ht, Nat.not_le.mpr h, reconnectDelay]

/-- Witness for `reconnect_backoff`: concrete backoff facts — the
fourth attempt waits longer than the first, a client at the attempt
cap schedules nothing, and a fresh client schedules 1000 ms. -/
theorem reconnect_backoff_witness :
    reconnectDelay 1 ≤ reconnectDelay 4 ∧
    (scheduleReconnect 5 ⟨5, false⟩).1 = none ∧
    (scheduleReconnect 5 ⟨0, false⟩).1 = some (min (1000 * 2 ^ 0) 30000) :=
  ⟨reconnect_backoff.2.1 1 4 (by decide),
    (reconnect_backoff.2.2.1 ⟨5, false⟩ (by decide)).1,
    reconnect_backoff.2.2.2 ⟨0, false⟩ rfl (by decide)⟩

/-- C9: after a `new_deal` message the deals list is the new deal
followed by the first 49 previous entries, hence never longer than 50
and with the newest deal first. -/
theorem newDeal_list_shape :
    ∀ (d : Deal) (prev : List Deal),
      applyNewDeal d prev = d :: prev.take 49 ∧
      (applyNewDeal d prev).length ≤ 50 ∧
      (applyNewDeal d prev).head? = some d := by
  intro d prev
  refine ⟨List.take_succ_cons .., ?_, by simp [applyNewDeal]⟩
  simp only [applyNewDeal]
  exact List.length_take_le 50 (d :: prev)

/-- C4: badge priority — `BLACK_PACK` exactly on black-pack deals;
`GEM` exactly on non-black deals with `profit ≥ 30` and high or very
high confidence; `SNIPER` only on non-black deals with `profit ≥ 50`
where the `GEM` rule did not already fire (so only at lower
confidence); `HOT` only when no earlier rule fired; in particular a
black-pack deal with `profit ≥ 80` gets `BLACK_PACK`, never
`SNIPER`. -/
theorem badge_priority :
    (∀ d : Deal, qualityBadge d = some Badge.BLACK_PACK ↔ d.is_black_pack = true) ∧
    (∀ d : Deal, qualityBadge d = some Badge.GEM ↔
      d.is_black_pack = false ∧
      (∃ q, d.profit_pct = some q ∧ 30 ≤ q) ∧
      (d.confidence_level = Confidence.high ∨
        d.confidence_level = Confidence.very_high)) ∧
    (∀ d : Deal, qualityBadge d = some Badge.SNIPER →
      d.is_black_pack = false ∧
      (∃ q, d.profit_pct = some q ∧ 50 ≤ q) ∧
      d.confidence_level ≠ Confidence.high ∧
      d.confidence_level ≠ Confidence.very_high) ∧
    (∀ d : Deal, qualityBadge d = some Badge.HOT →
      d.is_black_pack = false ∧ 7 ≤ d.hotness) ∧
    (∀ (d : Deal) (q : Rat), d.is_black_pack = true → d.profit_pct = some q →
      80 ≤ q → qualityBadge d = some Badge.BLACK_PACK ∧
        qualityBadge d ≠ some Badge.SNIPER) := by
  have hbp : ∀ d : Deal, qualityBadge d = some Badge.BLACK_PACK ↔
      d.is_black_pack = true := by
    intro d
    cases hb : d.is_black_pack <;>
      cases hp : d.profit_pct <;>
        simp [qualityBadge, hb, hp] <;> split_ifs <;> simp
  refine ⟨hbp, ?_, ?_, ?_, ?_⟩
  · intro d
    cases hb : d.is_black_pack <;> cases hp : d.profit_pct <;>
      simp [qualityBadge, hb, hp] <;> split_ifs <;> simp_all <;>
        first | tauto | linarith
  · intro d h
    cases hb : d.is_black_pack
    case true =>
      rw [(hbp d).mpr hb] at h
      exact absurd (Option.some.inj h) (by simp)
    case false =>
      cases hp : d.profit_pct with
      | none =>
        exfalso
        simp [qualityBadge, hb, hp] at h
      | some q =>
        simp only [qualityBadge, hb, hp, Bool.false_eq_true, if_false] at h
        split_ifs at h with h1 h2 h3
        · exact absurd (Option.some.inj h) (by simp)
        · have h50 : (50 : Rat) ≤ q := by simpa using h2
          have h30 : (30 : Rat) ≤ q := by linarith
          have hc : d.confidence_level ≠ Confidence.high ∧
              d.confidence_level ≠ Confidence.very_high := by
            constructor <;> intro hcc <;> exact h1 (by simp [h30, hcc])
          exact ⟨rfl, ⟨q, rfl, h50⟩, hc.1, hc.2⟩
        · exact absurd (Option.some.inj h) (by simp)
  · intro d
    cases hb : d.is_black_pack <;> cases hp : d.profit_pct <;>
      simp [qualityBadge, hb, hp] <;> split_ifs <;> simp_all
  · intro d q hb hp hq
    constructor
    · exact (hbp d).mpr hb
    · intro hcontra
      have := (hbp d).mpr hb
      rw [this] at hcontra
      exact Badge.noConfusion (Option.some.inj hcontra)

/-- Witness for `badge_priority`: a concrete black-pack deal with
profit 80 is badged `BLACK_PACK` and not `SNIPER`. -/
theorem badge_priority_witness :
    qualityBadge dealBlack80 = some Badge.BLACK_PACK ∧
      qualityBadge dealBlack80 ≠ some Badge.SNIPER :=
  badge_priority.2.2.2.2 dealBlack80 80 rfl rfl (by norm_num)

/-- C5 counterexample: the `DealCard` consumer in
`webapp/src/main.tsx` renders a genuinely zero `profit_pct` exactly
like the not-computable `null` sentinel — the profit line is hidden
and the "profit is being computed" placeholder is shown for both —
so zero profit IS conflated with the sentinel where the value is
consumed. -/
theorem dealCard_conflates_zero_profit :
    dealCardProfitBranch (some 0) = dealCardProfitBranch none ∧
      dealCardProfitBranch (some 0) = (false, true) := by
  constructor <;> rfl

/-- C5 (amended): `profit_pct` is
`(reference_price - price) / reference_price * 100` rounded to one
decimal when a positive reference price exists (`price = 7`,
`reference_price = 10` giving exactly `30`), and the distinct `none`
sentinel otherwise; the sentinel differs from a genuine zero in the
deal record itself, but the webapp `DealCard` consumer collapses the
two into the same rendering. -/
theorem profitPct_formula :
    (∀ p r : Rat, 0 < r →
      profitPct p (some r) = some (roundTo1 ((r - p) / r * 100))) ∧
    (∀ p : Rat, profitPct p none = none) ∧
    profitPct 7 (some 10) = some 30 ∧
    (∀ q : Rat, (some q : Option Rat) ≠ none) ∧
    dealCardProfitBranch (some 0) = dealCardProfitBranch none := by
  refine ⟨?_, fun p => rfl, by norm_num [profitPct, roundTo1], fun q => by simp, rfl⟩
  intro p r hr
  simp [profitPct, hr]

/-- Witness for `profitPct_formula`: the formula conjunct applied at
`price = 7`, `reference_price = 10`. -/
theorem profitPct_formula_witness :
    profitPct 7 (some 10) = some (roundTo1 ((10 - 7) / 10 * 100)) :=
  profitPct_formula.1 7 10 (by norm_num)

/-- Filtering with a predicate implied by the `any` predicate does
not change `List.any`. -/
theorem any_filter_of_imp {α : Type} (p q : α → Bool)
    (h : ∀ a, q a = true → p a = true) :
    ∀ l : List α, (l.filter p).any q = l.any q := by
  intro l
  induction l with
  | nil => rfl
  | cons x xs ih =>
    by_cases hp : p x = true
    · simp [List.filter_cons, hp, ih]
    · have hq : q x = false := by
        cases hqx : q x
        · rfl
        · exact absurd (h x hqx) hp
      simp [List.filter_cons, hp, hq, ih]

/-- Dropping the expired rows does not change the mute check. -/
theorem mutedNow_filter_expired (muted : List MutedAsset) (u : Nat)
    (key : String) (now : Int) :
    mutedNow (muted.filter (fun m => decide (now < m.muted_until))) u key now =
      mutedNow muted u key now := by
  unfold mutedNow
  refine any_filter_of_imp _ _ ?_ muted
  intro m hm
  simp only [Bool.and_eq_true, decide_eq_true_eq] at hm
  exact decide_eq_true hm.2

/-- C3: while a `MutedAsset` row for `(user, asset_key)` has
`muted_until > now`, the Alert Engine produces no `AlertDecision` for
that pair; and rows with `muted_until ≤ now` are treated exactly as
if absent — the evaluation result is unchanged when they are removed
(so an expiry alone can never produce an alert: decisions only arise
from evaluating a deal, and at that evaluation the expired row is
indistinguishable from no row). -/
theorem mute_correctness :
    (∀ (cfg : AlertConfig) (settings : UserSettings)
        (watchlist : List WatchlistEntry) (muted : List MutedAsset)
        (sent : List SentAlert) (u : Nat) (d : Deal) (now : Int),
      (∃ m ∈ muted, m.user_id = u ∧ m.asset_key = d.asset_key ∧
        now < m.muted_until) →
      evaluate cfg settings watchlist muted sent u d now = none) ∧
    (∀ (cfg : AlertConfig) (settings : UserSettings)
        (watchlist : List WatchlistEntry) (muted : List MutedAsset)
        (sent : List SentAlert) (u : Nat) (d : Deal) (now : Int),
      evaluate cfg settings watchlist muted sent u d now =
        evaluate cfg settings watchlist
          (muted.filter (fun m => decide (now < m.muted_until))) sent u d now) := by
  constructor
  · intro cfg settings watchlist muted sent u d now h
    have hm : mutedNow muted u d.asset_key now = true := by
      rcases h with ⟨m, hmem, h1, h2, h3⟩
      simp only [mutedNow, List.any_eq_true]
      exact ⟨m, hmem, by simp [h1, h2, h3]⟩
    by_cases ha : settings.active <;> simp [evaluate, hm, ha]
  · intro cfg settings watchlist muted sent u d now
    unfold evaluate
    rw [mutedNow_filter_expired]

/-- A concrete active mute row for the witness. -/
def mutedRow : MutedAsset := ⟨1, "Plush Pepe:Black", 1000⟩

/-- Witness for `mute_correctness`: with a concrete mute row whose
`muted_until` lies in the future, evaluation at `now = 500` yields no
decision. -/
theorem mute_correctness_witness :
    evaluate ⟨900, 10⟩ ⟨true, none, none, 12, BgFilter.any_bg, false⟩ []
      [mutedRow] [] 1 dealBlack80 500 = none :=
  mute_correctness.1 ⟨900, 10⟩ ⟨true, none, none, 12, BgFilter.any_bg, false⟩
    [] [mutedRow] [] 1 dealBlack80 500
    ⟨mutedRow, by simp, rfl, rfl, by norm_num [mutedRow]⟩

/-- One Alert Engine step preserves the cooldown-safety relation on
the alert history: an emission passes the cooldown check, so the new
alert escalates every same-pair alert still inside the window. -/
theorem alertStep_pairwise (cfg : AlertConfig) (settings : UserSettings)
    (watchlist : List WatchlistEntry) (muted : List MutedAsset) (u : Nat)
    (sent : List SentAlert) (c : Deal × Int)
    (h : List.Pairwise (escalated cfg) sent) :
    List.Pairwise (escalated cfg)
      (alertStep cfg settings watchlist muted u sent c) := by
  unfold alertStep
  cases hev : evaluate cfg settings watchlist muted sent u c.1 c.2 with
  | none => exact h
  | some dec =>
    have hcb : ∀ a ∈ sent,
        ¬((a.user_id == u && a.asset_key == c.1.asset_key
          && decide (c.2 - a.sent_at < cfg.window)
          && decide (profitVal c.1 < a.profit_pct + cfg.margin)) = true) := by
      intro a ha hPa
      have hblock : cooldownBlocked cfg sent u c.1 c.2 = true := by
        simp only [cooldownBlocked, List.any_eq_true]
        exact ⟨a, ha, hPa⟩
      unfold evaluate at hev
      split_ifs at hev <;> simp_all
    refine List.pairwise_append.mpr ⟨h, List.pairwise_singleton .., ?_⟩
    intro a ha b hb
    rw [List.mem_singleton] at hb
    subst hb
    intro hu hk ht
    have hPa := hcb a ha
    simp only at hu hk ht ⊢
    have hnlt : ¬(profitVal c.1 < a.profit_pct + cfg.margin) := by
      intro hlt
      exact hPa (by simp [hu, hk, ht, hlt])
    exact le_of_not_lt hnlt

/-- Running the Alert Engine preserves the cooldown-safety relation
on the alert history. -/
theorem alertRun_pairwise (cfg : AlertConfig) (settings : UserSettings)
    (watchlist : List WatchlistEntry) (muted : List MutedAsset) (u : Nat) :
    ∀ (cands : List (Deal × Int)) (sent : List SentAlert),
      List.Pairwise (escalated cfg) sent →
      List.Pairwise (escalated cfg)
        (alertRun cfg settings watchlist muted u sent cands) := by
  intro cands
  induction cands with
  | nil => intro sent h; exact h
  | cons c cs ih =>
    intro sent h
    exact ih _ (alertStep_pairwise cfg settings watchlist muted u sent c h)

/-- The cooldown policy of the scenario: 15-minute window (900 s) and
10-point escalation margin. -/
def cfg15 : AlertConfig := ⟨900, 10⟩

/-- Default user settings: active, no price bounds, the schema
default `profit_min = 12`, no background filter, no clean-only. -/
def defaultSettings : UserSettings := ⟨true, none, none, 12, BgFilter.any_bg, false⟩

/-- A plain deal on asset `k` with the given profit percentage. -/
def dealProfit (key : String) (p : Rat) : Deal :=
  ⟨key, "g2", 5, some 10, some p, Confidence.medium, 5, 5, false, none, none, none⟩

/-- The alert history of the scenario: one alert for asset `k` with
`profit_pct = 20` sent at `t0 = 0`. -/
def sentT0 : List SentAlert := [⟨1, "k", 20, 0⟩]

/-- C1: cooldown safety — in any run of the Alert Engine, two
recorded `SentAlert`s for the same user/asset pair whose send times
lie within one cooldown window of each other always escalate by at
least the margin; and concretely, after an alert at `t0` with profit
20, a deal five minutes later with profit 22 is suppressed while one
with profit 35 fires (15-minute window, 10-point margin). -/
theorem cooldown_safety :
    (∀ (cfg : AlertConfig) (settings : UserSettings)
        (watchlist : List WatchlistEntry) (muted : List MutedAsset)
        (u : Nat) (cands : List (Deal × Int)),
      List.Pairwise (escalated cfg)
        (alertRun cfg settings watchlist muted u [] cands)) ∧
    evaluate cfg15 defaultSettings [] [] sentT0 1 (dealProfit "k" 22) 300 = none ∧
    (evaluate cfg15 defaultSettings [] [] sentT0 1 (dealProfit "k" 35) 300).isSome = true := by
  refine ⟨?_, ?_, ?_⟩
  case refine_2 =>
    norm_num [evaluate, mutedNow, filterOk, effProfitMin, cooldownBlocked,
      profitVal, cfg15, defaultSettings, dealProfit, sentT0]
  case refine_3 =>
    norm_num [evaluate, mutedNow, filterOk, effProfitMin, cooldownBlocked,
      profitVal, cfg15, defaultSettings, dealProfit, sentT0]
  intro cfg settings watchlist muted u cands
  exact alertRun_pairwise cfg settings watchlist muted u cands [] List.Pairwise.nil

/-- Witness for `cooldown_safety`: the invariant instantiated on a
concrete one-candidate run. -/
theorem cooldown_safety_witness :
    List.Pairwise (escalated cfg15)
      (alertRun cfg15 defaultSettings [] [] 1 [] [(dealProfit "k" 22, 300)]) :=
  cooldown_safety.1 cfg15 defaultSettings [] [] 1 [(dealProfit "k" 22, 300)]

/-- C6: the liquidity score
`min(10, log2(sales_7d+1)*2 + log2(listings_count+1))` is monotone in
`sales_7d` for fixed `listings_count` and in `listings_count` for
fixed `sales_7d`, equals 0 at zero sales and zero listings, and is
clamped into `[0, 10]`. -/
theorem liquidity_monotone_bounds :
    (∀ s₁ s₂ l : Nat, s₁ ≤ s₂ → liquidityScore s₁ l ≤ liquidityScore s₂ l) ∧
    (∀ s l₁ l₂ : Nat, l₁ ≤ l₂ → liquidityScore s l₁ ≤ liquidityScore s l₂) ∧
    liquidityScore 0 0 = 0 ∧
    (∀ s l : Nat, 0 ≤ liquidityScore s l ∧ liquidityScore s l ≤ 10) := by
  have hb : (1 : Real) < 2 := one_lt_two
  have hpos : ∀ n : Nat, (0 : Real) < (n : Real) + 1 := fun n => by positivity
  have hone : ∀ n : Nat, (1 : Real) ≤ (n : Real) + 1 := fun n => by
    have : (0 : Real) ≤ (n : Real) := Nat.cast_nonneg n
    linarith
  have hcast : ∀ {a b : Nat}, a ≤ b → (a : Real) + 1 ≤ (b : Real) + 1 := by
    intro a b h
    have : (a : Real) ≤ (b : Real) := Nat.cast_le.mpr h
    linarith
  refine ⟨?_, ?_, ?_, ?_⟩
  · intro s₁ s₂ l h
    unfold liquidityScore
    refine min_le_min le_rfl ?_
    have hlog := Real.logb_le_logb_of_le hb (hpos s₁) (hcast h)
    linarith
  · intro s l₁ l₂ h
    unfold liquidityScore
    refine min_le_min le_rfl ?_
    have hlog := Real.logb_le_logb_of_le hb (hpos l₁) (hcast h)
    linarith
  · unfold liquidityScore
    norm_num [Real.logb_one]
  · intro s l
    unfold liquidityScore
    constructor
    · refine le_min (by norm_num) ?_
      have h₁ := Real.logb_nonneg hb (hone s)
      have h₂ := Real.logb_nonneg hb (hone l)
      linarith
    · exact min_le_left _ _

/-- Witness for `liquidity_monotone_bounds`: monotonicity applied on
concrete sales and listing counts, and the bounds at a concrete
point. -/
theorem liquidity_monotone_bounds_witness :
    liquidityScore 0 5 ≤ liquidityScore 3 5 ∧
    liquidityScore 2 1 ≤ liquidityScore 2 4 ∧
    (0 ≤ liquidityScore 3 4 ∧ liquidityScore 3 4 ≤ 10) :=
  ⟨liquidity_monotone_bounds.1 0 3 5 (by norm_num),
    liquidity_monotone_bounds.2.1 2 1 4 (by norm_num),
    liquidity_monotone_bounds.2.2.2 3 4⟩

/-- Replicated copies of an already-seen event are all dropped by the
dedup pass. -/
theorem dedupGo_replicate_mem (e : MarketEvent) :
    ∀ (n : Nat) (seen : List (Int × String × EventType)),
      eventKey e ∈ seen → dedupGo seen (List.replicate n e) = [] := by
  intro n
  induction n with
  | zero => intro seen h; rfl
  | succ m ih =>
    intro seen h
    simp only [List.replicate_succ, dedupGo, if_pos h]
    exact ih seen h

/-- After any prefix, one copy of an event followed by any number of
replicas dedups exactly like the single copy. -/
theorem dedupGo_append_replicate (e : MarketEvent) (n : Nat) :
    ∀ (l : List MarketEvent) (seen : List (Int × String × EventType)),
      dedupGo seen (l ++ List.replicate (n + 1) e) = dedupGo seen (l ++ [e]) := by
  intro l
  induction l with
  | nil =>
    intro seen
    simp only [List.nil_append, List.replicate_succ, dedupGo]
    by_cases h : eventKey e ∈ seen
    · simp only [if_pos h, dedupGo_replicate_mem e n seen h]
    · simp only [if_neg h]
      rw [dedupGo_replicate_mem e n _ (by simp)]
  | cons x xs ih =>
    intro seen
    simp only [List.cons_append, dedupGo]
    by_cases h : eventKey x ∈ seen
    · simp only [if_pos h]
      exact ih seen
    · simp only [if_neg h, List.append_eq]
      rw [ih]

/-- Dedup by event identity collapses replayed copies of an event to
the single first copy. -/
theorem dedupByKey_append_replicate (e : MarketEvent) (n : Nat) (l : List MarketEvent) :
    dedupByKey (l ++ List.replicate (n + 1) e) = dedupByKey (l ++ [e]) :=
  dedupGo_append_replicate e n l []

/-- Re-applying an event to the active-listings snapshot is a no-op:
the `buy` removal and the `listing`/`change_price` upsert are both
idempotent. -/
theorem applyListing_idem (ls : List ActiveListing) (e : MarketEvent) :
    applyListing (applyListing ls e) e = applyListing ls e := by
  cases he : e.event_type <;>
    simp [applyListing, he, List.filter_append, List.filter_filter, listingOfEvent]

/-- The event log after `n` ingestions of the same event. -/
theorem ingestN_events (e : MarketEvent) :
    ∀ (n : Nat) (s : EngineState),
      (ingestN e n s).events = s.events ++ List.replicate n e := by
  intro n
  induction n with
  | zero => intro s; simp [ingestN]
  | succ m ih =>
    intro s
    show (ingestN e m s).events ++ [e] = _
    rw [ih, List.replicate_succ', List.append_assoc]

/-- The listings snapshot after at least one ingestion of the same
event equals the snapshot after a single ingestion. -/
theorem ingestN_listings (e : MarketEvent) :
    ∀ (n : Nat) (s : EngineState),
      (ingestN e (n + 1) s).listings = applyListing s.listings e := by
  intro n
  induction n with
  | zero => intro s; rfl
  | succ m ih =>
    intro s
    show applyListing (ingestN e (m + 1) s).listings e = _
    rw [ih, applyListing_idem]

/-- `recompute` reads the event log only through the identity
dedup. -/
theorem recompute_congr_dedup (key : String) (ls : List ActiveListing)
    (now : Int) {evs₁ evs₂ : List MarketEvent}
    (h : dedupByKey evs₁ = dedupByKey evs₂) :
    recompute key ls evs₁ now = recompute key ls evs₂ now := by
  unfold recompute
  rw [h]

/-- C2: idempotence under replays — for every prior engine state,
ingesting the same `MarketEvent` `n ≥ 1` times yields exactly the
same `AssetAnalytics` record (all of: sales counts, quantiles,
liquidity, confidence, trend, floors) as ingesting it once. -/
theorem ingest_idempotent :
    ∀ (s : EngineState) (e : MarketEvent) (n : Nat), 1 ≤ n →
      ∀ (key : String) (now : Int),
        analyticsOf key (ingestN e n s) now = analyticsOf key (ingest e s) now := by
  intro s e n hn key now
  obtain ⟨m, rfl⟩ : ∃ m, n = m + 1 := ⟨n - 1, (Nat.succ_pred_eq_of_pos hn).symm⟩
  unfold analyticsOf
  rw [ingestN_listings e m s, ingestN_events e (m + 1) s]
  exact recompute_congr_dedup key (applyListing s.listings e) now
    (dedupByKey_append_replicate e m s.events)

/-- A concrete `buy` event for witnesses. -/
def eBuy : MarketEvent :=
  ⟨100, EventType.buy, "g1", "Plush Pepe", some "Black", none, none, 7,
    none, Source.tonnel⟩

/-- Witness for `ingest_idempotent`: three ingestions of a concrete
event produce the same analytics as one. -/
theorem ingest_idempotent_witness :
    analyticsOf "Plush Pepe:Black" (ingestN eBuy 3 ⟨[], []⟩) 1000 =
      analyticsOf "Plush Pepe:Black" (ingest eBuy ⟨[], []⟩) 1000 :=
  ingest_idempotent ⟨[], []⟩ eBuy 3 (by norm_num) "Plush Pepe:Black" 1000

